import Mathlib

/- Verification of the Scout query compiler and parallel scan engine
   (src/src/scout.cpp) against its natural-language specification.

   The development shallowly embeds the C++ code: the move database is a
   list of encoded moves, positions are abstracted behind the narrow query
   interface the scan uses (occupancy masks, material key, side to move),
   and the goto-based scan loops become well-founded recursive functions
   over array indices. -/

namespace Scout

/-- An encoded half move. The concrete fixed-width encoding lives in the
chess engine headers, outside the given sources; the scan logic only
distinguishes the reserved sentinel value from every other value, so moves
are modelled as natural numbers. -/
abbrev Move := Nat

/-- The reserved sentinel value marking end of game (MOVE_NONE). -/
def MOVE_NONE : Move := 0

/-- Modelled from the spec: to_sq extracts the destination square field of
an encoded move (the low six bits of the fixed-width encoding, declared in
the engine headers which are not among the sources); scout.cpp uses it only
to decode the result marker of a game (line 73). -/
def to_sq (m : Move) : Nat := m % 64

/-- Modelled from the spec: the GameResult enumeration (white win, black
win, draw, unknown, invalid) is declared in scout.h, which is not among the
given sources. The scan and compile logic depend only on equality between
these values, so we fix the declaration-order numbering. -/
def WhiteWin : Nat := 0

/-- GameResult value for a black win. -/
def BlackWin : Nat := 1

/-- GameResult value for a draw. -/
def Draw : Nat := 2

/-- GameResult value for an unknown result. -/
def Unknown : Nat := 3

/-- GameResult value for an unrecognized result string. -/
def Invalid : Nat := 4

/-- Piece types, as used by the pattern rule (PAWN .. KING). -/
inductive PieceType
  | PAWN
  | KNIGHT
  | BISHOP
  | ROOK
  | QUEEN
  | KING
deriving DecidableEq, Repr

/-- The two sides. -/
inductive Color
  | WHITE
  | BLACK
deriving DecidableEq, Repr

/-- The predicate opcodes of a compiled query (enum RuleType). -/
inductive RuleType
  | RuleNone
  | RulePattern
  | RuleMaterial
  | RuleWhite
  | RuleBlack
  | RuleResult
  | RuleEnd
deriving DecidableEq, Repr

open RuleType

/-- The view of a chess position that the scan consumes from the external
rules engine: overall and white occupancy masks (bitboards as natural
numbers, one bit per square), per piece type occupancy masks, the material
signature key, and the side to move. -/
structure PosView where
  allPieces : Nat
  whitePieces : Nat
  piecesOf : PieceType → Nat
  materialKey : Nat
  sideToMove : Color

/-- The piece placement pattern compiled from the fen field (struct member
d.pattern): a mask of all occupied squares, a mask of white occupied
squares, and per piece type masks for the piece types present. -/
structure Pattern where
  all : Nat
  white : Nat
  pieces : List (PieceType × Nat)
deriving DecidableEq, Repr

/-- The compiled query data consumed by the scan (the part of Scout::Data
that search reads): the rule program, the pattern, the target material key
and the target game result. -/
structure ScoutData where
  rules : List RuleType
  pattern : Pattern
  matKey : Nat
  result : Nat
deriving DecidableEq, Repr

/-- The external rules engine as consumed by the scan: a starting position,
move application, and the position view queried by the rules. Pos is the
engine position type, kept abstract. -/
structure Engine (Pos : Type) where
  rootPos : Pos
  doMove : Pos → Move → Pos
  view : Pos → PosView

/-- Read of the shared move array at index i. A read past the end of the
array (which the C++ pointer walk can issue at chunk boundaries without
affecting the outcome) returns the sentinel value. -/
def dbGet (db : List Move) (i : Nat) : Move := db.getD i 0

/-- A nonzero read is inside the array. -/
theorem dbGet_ne_zero_lt (db : List Move) (i : Nat) (h : dbGet db i ≠ 0) :
    i < db.length := by
  by_contra hc
  exact h (List.getD_eq_default db 0 (Nat.le_of_not_lt hc))

/-- Reads at or past the end of the array yield the sentinel. -/
theorem dbGet_eq_zero_of_le (db : List Move) (i : Nat) (h : db.length ≤ i) :
    dbGet db i = 0 :=
  List.getD_eq_default db 0 h

/-- The pattern rule of the scan, lines 96 to 104 of scout.cpp: the check
fails unless each pattern mask, intersected with the corresponding
occupancy mask of the position, equals the pattern mask. -/
def patternMatch (pv : PosView) (p : Pattern) : Bool :=
  (pv.allPieces &&& p.all == p.all) &&
  (pv.whitePieces &&& p.white == p.white) &&
  p.pieces.all (fun pr => pv.piecesOf pr.1 &&& pr.2 == pr.2)

/-- Outcome of running the rule program on one position: Failed (abandon
the remaining opcodes and move to the next move of the game) or SkipToNext
(abandon the remainder of the game, having credited a match or not). -/
inductive RuleOutcome
  | failed
  | skipGame (matched : Bool)
deriving DecidableEq, Repr

/-- The rule loop of the scan, lines 85 to 135 of scout.cpp: iterate the
opcodes in order with early exit. RuleResult mismatch skips the whole game
without a match; RuleEnd skips the whole game crediting a match; every
other failing check abandons only the current move. An exhausted list
cannot occur for a compiled program (which ends in RuleEnd or RuleNone). -/
def evalRules (d : ScoutData) (pv : PosView) (result : Nat) :
    List RuleType → RuleOutcome
  | [] => .failed
  | r :: rest =>
    match r with
    | RuleNone => .failed
    | RulePattern =>
        if patternMatch pv d.pattern then evalRules d pv result rest
        else .failed
    | RuleMaterial =>
        if pv.materialKey = d.matKey then evalRules d pv result rest
        else .failed
    | RuleWhite =>
        if pv.sideToMove = Color.WHITE then evalRules d pv result rest
        else .failed
    | RuleBlack =>
        if pv.sideToMove = Color.BLACK then evalRules d pv result rest
        else .failed
    | RuleResult =>
        if result = d.result then evalRules d pv result rest
        else .skipGame false
    | RuleEnd => .skipGame true

/-- The initial alignment of a worker, line 65 of scout.cpp: starting at
index i, advance one step past the first sentinel encountered (the loop
condition reads the cell and post-increments). -/
def skipPastSentinel (db : List Move) (i : Nat) : Nat :=
  if dbGet db i ≠ 0 then skipPastSentinel db (i + 1) else i + 1
termination_by db.length - i
decreasing_by
  have := dbGet_ne_zero_lt db i (by assumption)
  omega

/-- The SkipToNext loop, line 131 of scout.cpp: from the current move at
index i, advance to the sentinel ending the game, counting every skipped
move into the moves-replayed counter. Returns the sentinel index and the
updated counter. -/
def skipToSentinel (db : List Move) (i cnt : Nat) : Nat × Nat :=
  if dbGet db (i + 1) ≠ 0 then skipToSentinel db (i + 1) (cnt + 1)
  else (i + 1, cnt)
termination_by db.length - i
decreasing_by
  have := dbGet_ne_zero_lt db (i + 1) (by assumption)
  omega

/-- The end-of-game advance, line 142 of scout.cpp: from the sentinel at
index i, advance past consecutive sentinels while still short of the chunk
end. Returns the index of the next result marker (or the first index at or
past endIdx). -/
def skipNones (db : List Move) (endIdx i : Nat) : Nat :=
  if dbGet db (i + 1) = 0 ∧ i + 1 < endIdx then skipNones db endIdx (i + 1)
  else i + 1
termination_by endIdx - i
decreasing_by
  rename_i h
  omega

/-- The per-game replay loop, lines 77 to 139 of scout.cpp: i is the index
of the last consumed cell (initially the result marker). While the next
cell is not the sentinel, apply the move, count it, and run the rule
program on the resulting position; on Failed continue with the next move,
on SkipToNext consume the rest of the game (counting the skipped moves) and
credit a match if one was found. Returns the index of the game ending
sentinel together with the updated counters (moves, matches). -/
def playGame {Pos : Type} (eng : Engine Pos) (d : ScoutData) (db : List Move)
    (pos : Pos) (result : Nat) (i cnt mc : Nat) : Nat × Nat × Nat :=
  if dbGet db (i + 1) ≠ 0 then
    match evalRules d (eng.view (eng.doMove pos (dbGet db (i + 1)))) result
        d.rules with
    | .failed =>
        playGame eng d db (eng.doMove pos (dbGet db (i + 1))) result (i + 1)
          (cnt + 1) mc
    | .skipGame matched =>
        ((skipToSentinel db (i + 1) (cnt + 1)).1,
         (skipToSentinel db (i + 1) (cnt + 1)).2,
         mc + if matched then 1 else 0)
  else (i + 1, cnt, mc)
termination_by db.length - i
decreasing_by
  have := dbGet_ne_zero_lt db (i + 1) (by assumption)
  omega

/-- Unfolding of playGame at the game ending sentinel. -/
theorem playGame_eq_stop {Pos : Type} (eng : Engine Pos) (d : ScoutData)
    (db : List Move) (pos : Pos) (result i cnt mc : Nat)
    (h : dbGet db (i + 1) = 0) :
    playGame eng d db pos result i cnt mc = (i + 1, cnt, mc) := by
  rw [playGame, if_neg (by simp [h])]

/-- Unfolding of playGame when the rule program fails on the current move:
evaluation continues with the next move of the same game. -/
theorem playGame_eq_failed {Pos : Type} (eng : Engine Pos) (d : ScoutData)
    (db : List Move) (pos : Pos) (result i cnt mc : Nat)
    (h : dbGet db (i + 1) ≠ 0)
    (hev : evalRules d (eng.view (eng.doMove pos (dbGet db (i + 1)))) result
        d.rules = .failed) :
    playGame eng d db pos result i cnt mc =
      playGame eng d db (eng.doMove pos (dbGet db (i + 1))) result (i + 1)
        (cnt + 1) mc := by
  rw [playGame, if_pos h, hev]

/-- Unfolding of playGame when the rule program reports SkipToNext on the
current move: the rest of the game is consumed without evaluation, the
skipped moves are counted, and a match is credited exactly when the
program reached RuleEnd. -/
theorem playGame_eq_skip {Pos : Type} (eng : Engine Pos) (d : ScoutData)
    (db : List Move) (pos : Pos) (result i cnt mc : Nat) (b : Bool)
    (h : dbGet db (i + 1) ≠ 0)
    (hev : evalRules d (eng.view (eng.doMove pos (dbGet db (i + 1)))) result
        d.rules = .skipGame b) :
    playGame eng d db pos result i cnt mc =
      ((skipToSentinel db (i + 1) (cnt + 1)).1,
       (skipToSentinel db (i + 1) (cnt + 1)).2,
       mc + if b then 1 else 0) := by
  rw [playGame, if_pos h, hev]

/-- The sentinel search of a worker always advances. -/
theorem skipToSentinel_fst_ge (db : List Move) :
    ∀ i cnt, i + 1 ≤ (skipToSentinel db i cnt).1 := by
  intro i cnt
  induction i, cnt using skipToSentinel.induct db with
  | case1 i cnt h ih =>
      rw [skipToSentinel, if_pos h]
      omega
  | case2 i cnt h =>
      rw [skipToSentinel, if_neg h]

/-- The per-game replay always advances. -/
theorem playGame_fst_ge {Pos : Type} (eng : Engine Pos) (d : ScoutData)
    (db : List Move) :
    ∀ pos result i cnt mc,
      i + 1 ≤ (playGame eng d db pos result i cnt mc).1 := by
  intro pos result i cnt mc
  induction pos, result, i, cnt, mc using playGame.induct eng d db with
  | case1 pos result i cnt mc h hev ih =>
      rw [playGame_eq_failed eng d db pos result i cnt mc h hev]
      omega
  | case2 pos result i cnt mc h b hev =>
      rw [playGame_eq_skip eng d db pos result i cnt mc b h hev]
      have := skipToSentinel_fst_ge db (i + 1) (cnt + 1)
      omega
  | case3 pos result i cnt mc h =>
      rw [playGame_eq_stop eng d db pos result i cnt mc (by simpa using h)]

/-- The end-of-game advance always advances. -/
theorem skipNones_gt (db : List Move) (endIdx : Nat) :
    ∀ i, i < skipNones db endIdx i := by
  intro i
  induction i using skipNones.induct db endIdx with
  | case1 i h ih =>
      rw [skipNones, if_pos h]
      omega
  | case2 i h =>
      rw [skipNones, if_neg h]
      omega

/-- The outer replay loop, lines 68 to 143 of scout.cpp: while the cursor
is short of the chunk end, decode the result marker under the cursor,
replay the game from the fixed starting position, then advance past the
game ending sentinel. Returns the final counters (moves, matches). -/
def scanGames {Pos : Type} (eng : Engine Pos) (d : ScoutData) (db : List Move)
    (endIdx i cnt mc : Nat) : Nat × Nat :=
  if i < endIdx then
    scanGames eng d db endIdx
      (skipNones db endIdx
        (playGame eng d db eng.rootPos (to_sq (dbGet db i)) i cnt mc).1)
      (playGame eng d db eng.rootPos (to_sq (dbGet db i)) i cnt mc).2.1
      (playGame eng d db eng.rootPos (to_sq (dbGet db i)) i cnt mc).2.2
  else (cnt, mc)
termination_by endIdx - i
decreasing_by
  have h1 := playGame_fst_ge eng d db eng.rootPos (to_sq (dbGet db i)) i cnt mc
  have h2 := skipNones_gt db endIdx
      (playGame eng d db eng.rootPos (to_sq (dbGet db i)) i cnt mc).1
  omega

/-- Scout::search, lines 45 to 147 of scout.cpp, for worker idx of N: the
nominal chunk is the equal division of the array length by N, the last
worker absorbing the remainder; the worker first advances past the first
sentinel it meets, then replays games while short of its chunk end.
Returns the counters the worker commits (movesCnt, matchCnt). -/
def search {Pos : Type} (eng : Engine Pos) (d : ScoutData) (db : List Move)
    (N idx : Nat) : Nat × Nat :=
  let range := db.length / N
  let start := idx * range
  let endIdx := if idx = N - 1 then db.length else start + range
  scanGames eng d db endIdx (skipPastSentinel db start) 0 0

/-- Partial sums of the per worker counters: sumWorkers eng d db N k is the
componentwise sum of the counters of workers 0 .. k-1. -/
def sumWorkers {Pos : Type} (eng : Engine Pos) (d : ScoutData)
    (db : List Move) (N : Nat) : Nat → Nat × Nat
  | 0 => (0, 0)
  | k + 1 =>
      ((sumWorkers eng d db N k).1 + (search eng d db N k).1,
       (sumWorkers eng d db N k).2 + (search eng d db N k).2)

/-- The aggregation of Scout::print_results, lines 161 to 165 of scout.cpp:
sum the per worker counters over all N workers. -/
def totalCounts {Pos : Type} (eng : Engine Pos) (d : ScoutData)
    (db : List Move) (N : Nat) : Nat × Nat :=
  sumWorkers eng d db N N

/-- The recognized fields of a JSON query payload, after the external
decoding steps that scout.cpp delegates to collaborators: the json library
parses the payload, Position::set decodes the fen string into a position
(queried here through its PosView) and the material string into a material
key. A field is some value exactly when it is present and nonempty in the
sense of the json empty() checks of lines 190, 207, 214 and 220; for the
string valued fields stm and result the raw string is kept. -/
structure Query where
  fen : Option PosView
  material : Option Nat
  stm : Option String
  result : Option String

/-- The side-to-move opcode selection of line 216 of scout.cpp: the white
opcode exactly for the string WHITE, the black opcode for anything else. -/
def stmOpcode (s : String) : RuleType :=
  if s = "WHITE" then RuleWhite else RuleBlack

/-- The result string decoding of lines 222 to 225 of scout.cpp. -/
def resultCode (s : String) : Nat :=
  if s = "1-0" then WhiteWin
  else if s = "0-1" then BlackWin
  else if s = "1/2-1/2" then Draw
  else if s = "*" then Unknown
  else Invalid

/-- The piece type iteration order of line 200 of scout.cpp. -/
def pieceTypesList : List PieceType :=
  [.PAWN, .KNIGHT, .BISHOP, .ROOK, .QUEEN, .KING]

/-- The pattern construction of lines 197 to 202 of scout.cpp: overall and
white occupancy of the decoded fen position, plus one entry per piece type
that is present. -/
def patternOfPos (pv : PosView) : Pattern :=
  { all := pv.allPieces
    white := pv.whitePieces
    pieces := pieceTypesList.filterMap
      (fun pt => if pv.piecesOf pt ≠ 0 then some (pt, pv.piecesOf pt)
                 else none) }

/-- A default constructed Scout::Data: no rules; the pattern, material key
and result fields are only ever read under the corresponding opcode, which
is pushed exactly when the field is also set, so their defaults are
immaterial. -/
def emptyData : ScoutData :=
  { rules := [], pattern := ⟨0, 0, []⟩, matKey := 0, result := Invalid }

/-- The fen block of parse_rules, lines 190 to 205 of scout.cpp. -/
def fenStep (f : Option PosView) (d : ScoutData) : ScoutData :=
  match f with
  | some pv => { d with pattern := patternOfPos pv,
                        rules := d.rules ++ [RulePattern] }
  | none => d

/-- The material block of parse_rules, lines 207 to 212 of scout.cpp. -/
def materialStep (m : Option Nat) (d : ScoutData) : ScoutData :=
  match m with
  | some k => { d with matKey := k, rules := d.rules ++ [RuleMaterial] }
  | none => d

/-- The stm block of parse_rules, lines 214 to 218 of scout.cpp: a
present, nonempty stm string always contributes exactly one opcode. -/
def stmStep (s : Option String) (d : ScoutData) : ScoutData :=
  match s with
  | some s => if s ≠ "" then { d with rules := d.rules ++ [stmOpcode s] }
              else d
  | none => d

/-- The result block of parse_rules, lines 220 to 232 of scout.cpp: an
opcode and a target result are recorded only when the string decodes to
one of the four recognized results. -/
def resultStep (r : Option String) (d : ScoutData) : ScoutData :=
  match r with
  | some s =>
      if s ≠ "" then
        if resultCode s ≠ Invalid then
          { d with result := resultCode s, rules := d.rules ++ [RuleResult] }
        else d
      else d
  | none => d

/-- The terminator push of line 234 of scout.cpp: RuleEnd after a nonempty
program, RuleNone after an empty one. -/
def sealRules (d : ScoutData) : ScoutData :=
  { d with rules := d.rules ++
      [if d.rules.length ≠ 0 then RuleEnd else RuleNone] }

/-- Scout::parse_rules, lines 177 to 235 of scout.cpp: the four field
blocks in program order, then the terminator. -/
def parse_rules (q : Query) : ScoutData :=
  sealRules (resultStep q.result
    (stmStep q.stm (materialStep q.material (fenStep q.fen emptyData))))

/-- A concrete position view used by the test runs: two squares occupied,
both by white pawns, side to move white. -/
def whiteView : PosView :=
  { allPieces := 3
    whitePieces := 3
    piecesOf := fun pt => if pt = PieceType.PAWN then 3 else 0
    materialKey := 7
    sideToMove := Color.WHITE }

/-- A concrete engine for the test runs: positions are the views
themselves, and applying any move yields whiteView. -/
def testEngine : Engine PosView :=
  { rootPos := whiteView, doMove := fun _ _ => whiteView, view := id }

/-- A concrete position view: a single white pawn on one square. This is
the decoded form of a one pawn fen pattern, a proper subset of whiteView
occupancy. -/
def pawnView : PosView :=
  { allPieces := 1
    whitePieces := 1
    piecesOf := fun pt => if pt = PieceType.PAWN then 1 else 0
    materialKey := 3
    sideToMove := Color.WHITE }

/-- The compiled form of the query whose only field is stm WHITE. -/
def dStm : ScoutData := parse_rules ⟨none, none, some "WHITE", none⟩

/-- The compiled form of the query whose only field is result 1-0. -/
def dRes : ScoutData := parse_rules ⟨none, none, none, some "1-0"⟩

/-- The compiled form of the query whose only field is a one pawn fen. -/
def dPat : ScoutData := parse_rules ⟨some pawnView, none, none, none⟩

/-- A GameRecord: a result marker followed by the moves of the game. -/
structure Game where
  marker : Move
  moves : List Move

/-- The encoding of one GameRecord in the move array: the result marker,
the moves, the sentinel. -/
def Game.encode (g : Game) : List Move := g.marker :: (g.moves ++ [MOVE_NONE])

/-- A database: the concatenation of the GameRecords, with no separators
beyond the per game sentinels. -/
def encodeDB (gs : List Game) : List Move := (gs.map Game.encode).flatten

/-- The number of cells of a database that are neither result markers nor
sentinels. -/
def dbMoveTotal (gs : List Game) : Nat :=
  (gs.map (fun g => g.moves.length)).sum

/-- Bitwise characterization of the mask checks of the pattern rule: the
intersection with a mask leaves the mask unchanged exactly when every bit
of the mask is present. -/
theorem land_eq_right_iff (a b : Nat) :
    (a &&& b = b) ↔ ∀ k, b.testBit k → a.testBit k := by
  constructor
  · intro h k hk
    have h2 := congrArg (fun n => n.testBit k) h
    simp only [Nat.testBit_land] at h2
    rw [hk] at h2
    simpa using h2
  · intro h
    apply Nat.eq_of_testBit_eq
    intro k
    rw [Nat.testBit_land]
    cases hb : b.testBit k
    · simp
    · simp [h k hb]

/-- Full description of the SkipToNext walk: it stops at the first
sentinel strictly after its start, and it adds one to the counter for
every (necessarily non sentinel) cell it walks over. -/
theorem skipToSentinel_spec (db : List Move) :
    ∀ i cnt,
      dbGet db (skipToSentinel db i cnt).1 = 0 ∧
      (∀ k, i < k → k < (skipToSentinel db i cnt).1 → dbGet db k ≠ 0) ∧
      (skipToSentinel db i cnt).2 =
        cnt + ((skipToSentinel db i cnt).1 - (i + 1)) := by
  intro i cnt
  induction i, cnt using skipToSentinel.induct db with
  | case1 i cnt h ih =>
      rw [skipToSentinel, if_pos h]
      obtain ⟨ih1, ih2, ih3⟩ := ih
      have hge := skipToSentinel_fst_ge db (i + 1) (cnt + 1)
      refine ⟨ih1, ?_, by omega⟩
      intro k hk1 hk2
      rcases Nat.lt_or_ge (i + 1) k with hgt | hle
      · exact ih2 k hgt hk2
      · have : k = i + 1 := by omega
        simpa [this] using h
  | case2 i cnt h =>
      rw [skipToSentinel, if_neg h]
      exact ⟨not_not.mp h, fun k hk1 hk2 => by omega, by omega⟩

/-- A SkipToNext outcome without a match can only come from the result
rule comparing unequal results: whenever the decoded game result equals
the target, the rule loop never abandons a game without a match. -/
theorem evalRules_skipGame_false_ne (d : ScoutData) (pv : PosView)
    (result : Nat) :
    ∀ rules, evalRules d pv result rules = .skipGame false →
      result ≠ d.result := by
  intro rules
  induction rules with
  | nil => intro h; exact absurd h (by simp [evalRules])
  | cons r rest ih =>
      intro h
      cases r <;> simp only [evalRules] at h
      · exact absurd h (by simp)
      · split at h
        · exact ih h
        · exact absurd h (by simp)
      · split at h
        · exact ih h
        · exact absurd h (by simp)
      · split at h
        · exact ih h
        · exact absurd h (by simp)
      · split at h
        · exact ih h
        · exact absurd h (by simp)
      · split at h
        · exact ih h
        · rename_i hne
          exact hne
      · exact absurd h (by simp)

/-- If the rule program fails on every position, the per game replay never
changes the match counter. -/
theorem playGame_mc_const {Pos : Type} (eng : Engine Pos) (d : ScoutData)
    (db : List Move)
    (hfail : ∀ pv result, evalRules d pv result d.rules = .failed) :
    ∀ pos result i cnt mc,
      (playGame eng d db pos result i cnt mc).2.2 = mc := by
  intro pos result i cnt mc
  induction pos, result, i, cnt, mc using playGame.induct eng d db with
  | case1 pos result i cnt mc h hev ih =>
      rw [playGame_eq_failed eng d db pos result i cnt mc h hev]
      exact ih
  | case2 pos result i cnt mc h b hev =>
      rw [hfail] at hev
      exact absurd hev (by simp)
  | case3 pos result i cnt mc h =>
      rw [playGame_eq_stop eng d db pos result i cnt mc (by simpa using h)]

/-- Unfolding of the outer replay loop inside a chunk. -/
theorem scanGames_eq_step {Pos : Type} (eng : Engine Pos) (d : ScoutData)
    (db : List Move) (endIdx i cnt mc : Nat) (h : i < endIdx) :
    scanGames eng d db endIdx i cnt mc =
      scanGames eng d db endIdx
        (skipNones db endIdx
          (playGame eng d db eng.rootPos (to_sq (dbGet db i)) i cnt mc).1)
        (playGame eng d db eng.rootPos (to_sq (dbGet db i)) i cnt mc).2.1
        (playGame eng d db eng.rootPos (to_sq (dbGet db i)) i cnt mc).2.2 := by
  rw [scanGames, if_pos h]

/-- Unfolding of the outer replay loop at the chunk end. -/
theorem scanGames_eq_stop {Pos : Type} (eng : Engine Pos) (d : ScoutData)
    (db : List Move) (endIdx i cnt mc : Nat) (h : ¬ i < endIdx) :
    scanGames eng d db endIdx i cnt mc = (cnt, mc) := by
  rw [scanGames, if_neg h]

/-- If the rule program fails on every position, the outer replay loop
never changes the match counter. -/
theorem scanGames_mc_const {Pos : Type} (eng : Engine Pos) (d : ScoutData)
    (db : List Move)
    (hfail : ∀ pv result, evalRules d pv result d.rules = .failed) :
    ∀ endIdx i cnt mc, (scanGames eng d db endIdx i cnt mc).2 = mc := by
  intro endIdx i cnt mc
  induction i, cnt, mc using scanGames.induct eng d db endIdx with
  | case1 i cnt mc h ih =>
      rw [scanGames_eq_step eng d db endIdx i cnt mc h, ih,
        playGame_mc_const eng d db hfail]
  | case2 i cnt mc h =>
      rw [scanGames_eq_stop eng d db endIdx i cnt mc h]

/-- If the rule program fails on every position, every partial sum of
worker match counters is zero. -/
theorem sumWorkers_mc_zero {Pos : Type} (eng : Engine Pos) (d : ScoutData)
    (db : List Move) (N : Nat)
    (hfail : ∀ pv result, evalRules d pv result d.rules = .failed) :
    ∀ k, (sumWorkers eng d db N k).2 = 0 := by
  intro k
  induction k with
  | zero => rfl
  | succ k ih =>
      show (sumWorkers eng d db N k).2 + (search eng d db N k).2 = 0
      rw [ih]
      simp [search, scanGames_mc_const eng d db hfail]

/-- The opcode sequence contributed by the recognized fields of a query,
in compilation order: pattern, material, side to move, result. -/
def queryOps (q : Query) : List RuleType :=
  (match q.fen with | some _ => [RulePattern] | none => []) ++
  (match q.material with | some _ => [RuleMaterial] | none => []) ++
  (match q.stm with
   | some s => if s ≠ "" then [stmOpcode s] else []
   | none => []) ++
  (match q.result with
   | some s => if s ≠ "" ∧ resultCode s ≠ Invalid then [RuleResult] else []
   | none => [])

/-- The compiled rule list is exactly the fixed order field contribution
followed by the terminator opcode. -/
theorem parse_rules_rules (q : Query) :
    (parse_rules q).rules =
      queryOps q ++ [if queryOps q = [] then RuleNone else RuleEnd] := by
  obtain ⟨f, m, s, r⟩ := q
  cases f <;> cases m <;> cases s <;> cases r <;>
    simp only [parse_rules, sealRules, resultStep, stmStep, materialStep,
      fenStep, emptyData, queryOps] <;>
    split_ifs <;> simp_all

/-- C1, claim as stated, refuted: the spec demands that the pattern
predicate succeed only on exact mask equality and that a position whose
occupancy strictly contains the pattern masks not match. In the code the
checks of lines 96 to 104 are containment checks, so the strict superset
whiteView of the one pawn pattern dPat does match, and a full replay of a
database through the compiled pattern query credits a match on it. -/
theorem C1_counterexample :
    RulePattern ∈ dPat.rules ∧
    patternMatch whiteView dPat.pattern = true ∧
    whiteView.allPieces ≠ dPat.pattern.all ∧
    (totalCounts testEngine dPat [9, 0, 9, 7, 0] 1).2 = 1 := by
  refine ⟨by decide, by decide, by decide, ?_⟩
  simp +decide [totalCounts, sumWorkers, search, scanGames, playGame,
    skipNones, skipToSentinel, skipPastSentinel, evalRules, patternMatch,
    dbGet, dPat, parse_rules, to_sq]

/-- C1, amended: the pattern predicate succeeds exactly when each of the
pattern masks (all pieces, white pieces, and every listed per piece type
mask) is a bitwise subset of the corresponding occupancy mask of the
position; extra pieces in the position are allowed, so a proper superset
of the pattern masks does match. -/
theorem C1_pattern_subset_iff (pv : PosView) (p : Pattern) :
    patternMatch pv p = true ↔
      ((∀ k, p.all.testBit k → pv.allPieces.testBit k) ∧
       (∀ k, p.white.testBit k → pv.whitePieces.testBit k) ∧
       (∀ pr ∈ p.pieces, ∀ k, pr.2.testBit k →
          (pv.piecesOf pr.1).testBit k)) := by
  unfold patternMatch
  simp only [Bool.and_eq_true, beq_iff_eq, List.all_eq_true]
  constructor
  · rintro ⟨⟨ha, hw⟩, hp⟩
    exact ⟨(land_eq_right_iff _ _).1 ha, (land_eq_right_iff _ _).1 hw,
      fun pr hpr => (land_eq_right_iff _ _).1 (hp pr hpr)⟩
  · rintro ⟨ha, hw, hp⟩
    exact ⟨⟨(land_eq_right_iff _ _).2 ha, (land_eq_right_iff _ _).2 hw⟩,
      fun pr hpr => (land_eq_right_iff _ _).2 (hp pr hpr)⟩

/-- C2: evaluation of the code at the failing input. On the two game
database encodeDB of the games (marker 9, move 7) and (marker 9, move 8),
with the side to move query compiled by parse_rules, one worker yields the
totals (1, 1) while two workers yield (0, 0): the initial alignment of
line 65 makes every worker, including worker 0, discard everything up to
the first sentinel it meets, so the first GameRecord is processed by no
worker, and with two workers the second game, which begins exactly at the
nominal slice boundary, is also processed by no worker. The claim that
each complete GameRecord is processed by exactly one worker and that the
totals are invariant in the worker count fails on the code. -/
theorem C2_first_game_dropped :
    totalCounts testEngine dStm (encodeDB [⟨9, [7]⟩, ⟨9, [8]⟩]) 1 = (1, 1) ∧
    totalCounts testEngine dStm (encodeDB [⟨9, [7]⟩, ⟨9, [8]⟩]) 2 = (0, 0) := by
  constructor <;>
    simp +decide [totalCounts, sumWorkers, search, scanGames, playGame,
      skipNones, skipToSentinel, skipPastSentinel, evalRules, patternMatch,
      dbGet, dStm, parse_rules, to_sq, encodeDB, Game.encode, MOVE_NONE]

/-- C3: evaluation of the code at the failing input. On the single game
database with one move, the sum of the per worker moves replayed counters
is 0 while the database holds 1 cell that is neither a result marker nor a
sentinel: the initial alignment of line 65 discards the whole first game,
so its moves are never counted. The claimed partition completeness fails
on the code. -/
theorem C3_partition_sum_mismatch :
    (totalCounts testEngine (parse_rules ⟨none, none, none, none⟩)
       (encodeDB [⟨9, [7]⟩]) 1).1 = 0 ∧
    dbMoveTotal [⟨9, [7]⟩] = 1 := by
  refine ⟨?_, by decide⟩
  simp +decide [totalCounts, sumWorkers, search, scanGames, playGame,
    skipNones, skipToSentinel, skipPastSentinel, evalRules, patternMatch,
    dbGet, parse_rules, to_sq, encodeDB, Game.encode, MOVE_NONE]

/-- C4: a game contributes at most one match. The per game replay returns
a match counter equal to the incoming one or to its successor, for every
engine, compiled query, database and game: once the rule program reaches
RuleEnd the match counter is incremented once and the remainder of the
game is consumed by the SkipToNext walk, which never evaluates the rule
program again. -/
theorem C4_at_most_one_match {Pos : Type} (eng : Engine Pos)
    (d : ScoutData) (db : List Move) :
    ∀ pos result i cnt mc,
      (playGame eng d db pos result i cnt mc).2.2 = mc ∨
      (playGame eng d db pos result i cnt mc).2.2 = mc + 1 := by
  intro pos result i cnt mc
  induction pos, result, i, cnt, mc using playGame.induct eng d db with
  | case1 pos result i cnt mc h hev ih =>
      rw [playGame_eq_failed eng d db pos result i cnt mc h hev]
      exact ih
  | case2 pos result i cnt mc h b hev =>
      rw [playGame_eq_skip eng d db pos result i cnt mc b h hev]
      cases b
      · left
        simp
      · right
        simp
  | case3 pos result i cnt mc h =>
      rw [playGame_eq_stop eng d db pos result i cnt mc (by simpa using h)]
      left
      rfl

/-- C5: a failing result rule abandons the whole remaining game while any
other failure abandons only the current move. If the rule program reports
SkipToNext without a match on the current move, then the decoded game
result differs from the target and the replay jumps straight to the game
ending sentinel with the match counter unchanged (zero matches from this
game); if the rule program reports a plain failure, the replay continues
with the next move of the same game. -/
theorem C5_result_shortcircuit {Pos : Type} (eng : Engine Pos)
    (d : ScoutData) (db : List Move) (pos : Pos) (result i cnt mc : Nat)
    (hm : dbGet db (i + 1) ≠ 0) :
    (evalRules d (eng.view (eng.doMove pos (dbGet db (i + 1)))) result
        d.rules = .skipGame false →
      result ≠ d.result ∧
      playGame eng d db pos result i cnt mc =
        ((skipToSentinel db (i + 1) (cnt + 1)).1,
         (skipToSentinel db (i + 1) (cnt + 1)).2, mc)) ∧
    (evalRules d (eng.view (eng.doMove pos (dbGet db (i + 1)))) result
        d.rules = .failed →
      playGame eng d db pos result i cnt mc =
        playGame eng d db (eng.doMove pos (dbGet db (i + 1))) result
          (i + 1) (cnt + 1) mc) := by
  constructor
  · intro hev
    refine ⟨evalRules_skipGame_false_ne d _ result d.rules hev, ?_⟩
    rw [playGame_eq_skip eng d db pos result i cnt mc false hm hev]
    simp
  · intro hev
    exact playGame_eq_failed eng d db pos result i cnt mc hm hev

/-- C5 witness: on the database 9, 7, 8, 0 with the compiled result query
dRes (target white win) and decoded game result 9, the first move already
fails the result rule, so the whole game is consumed with no match: the
replay returns the sentinel index 3, counter 2 (both moves counted) and
zero matches. -/
theorem C5_witness :
    dbGet [9, 7, 8, 0] 1 ≠ 0 ∧
    (9 : Nat) ≠ dRes.result ∧
    playGame testEngine dRes [9, 7, 8, 0] whiteView 9 0 0 0 = (3, 2, 0) := by
  have h := (C5_result_shortcircuit testEngine dRes [9, 7, 8, 0] whiteView
    9 0 0 0 (by decide)).1 (by decide)
  refine ⟨by decide, h.1, ?_⟩
  rw [h.2]
  simp +decide [skipToSentinel]

/-- C6: the compiled rule program lists its opcodes in the fixed order
pattern, material, side to move, result, each present exactly when its
field was recognized, and its last opcode is RuleEnd when at least one
predicate opcode was emitted and RuleNone otherwise. -/
theorem C6_fixed_order (q : Query) :
    (parse_rules q).rules =
      queryOps q ++ [if queryOps q = [] then RuleNone else RuleEnd] ∧
    ((parse_rules q).rules.getLast? = some RuleEnd ∨
     (parse_rules q).rules.getLast? = some RuleNone) := by
  refine ⟨parse_rules_rules q, ?_⟩
  rw [parse_rules_rules q, List.getLast?_concat]
  split
  · right
    rfl
  · left
    rfl

/-- C7: a query with none of the four recognized fields compiles to the
single opcode RuleNone, and scanning any database with any worker count
under that program finds zero matches. -/
theorem C7_empty_query {Pos : Type} (eng : Engine Pos) (db : List Move)
    (N : Nat) (q : Query) (hf : q.fen = none) (hm : q.material = none)
    (hs : q.stm = none) (hr : q.result = none) :
    (parse_rules q).rules = [RuleNone] ∧
    (totalCounts eng (parse_rules q) db N).2 = 0 := by
  have hrules : (parse_rules q).rules = [RuleNone] := by
    obtain ⟨f, m, s, r⟩ := q
    dsimp only at hf hm hs hr
    subst hf
    subst hm
    subst hs
    subst hr
    rfl
  refine ⟨hrules, ?_⟩
  have hfail : ∀ pv result,
      evalRules (parse_rules q) pv result (parse_rules q).rules = .failed := by
    intro pv result
    rw [hrules]
    rfl
  exact sumWorkers_mc_zero eng (parse_rules q) db N hfail N

/-- C7 witness: the empty query on a concrete one game database with one
worker compiles to the single RuleNone opcode and finds zero matches. -/
theorem C7_witness :
    ((⟨none, none, none, none⟩ : Query).fen = none ∧
     (⟨none, none, none, none⟩ : Query).material = none ∧
     (⟨none, none, none, none⟩ : Query).stm = none ∧
     (⟨none, none, none, none⟩ : Query).result = none) ∧
    ((parse_rules ⟨none, none, none, none⟩).rules = [RuleNone] ∧
     (totalCounts testEngine (parse_rules ⟨none, none, none, none⟩)
        [9, 7, 0] 1).2 = 0) :=
  ⟨⟨rfl, rfl, rfl, rfl⟩,
   C7_empty_query testEngine [9, 7, 0] 1 ⟨none, none, none, none⟩
     rfl rfl rfl rfl⟩

/-- C8: a present result field whose value is none of the four recognized
strings is silently dropped: the compiled data is identical to the one
produced with the result field absent. -/
theorem C8_unrecognized_result (q : Query) (s : String) (h1 : s ≠ "1-0")
    (h2 : s ≠ "0-1") (h3 : s ≠ "1/2-1/2") (h4 : s ≠ "*") :
    parse_rules { q with result := some s } =
      parse_rules { q with result := none } := by
  show sealRules (resultStep (some s)
      (stmStep q.stm (materialStep q.material (fenStep q.fen emptyData)))) =
    sealRules (resultStep none
      (stmStep q.stm (materialStep q.material (fenStep q.fen emptyData))))
  congr 1
  simp [resultStep, resultCode, h1, h2, h3, h4]

/-- C8 witness: the query with stm WHITE and the unrecognized result
string xyz compiles to exactly the same data as the query without the
result field. -/
theorem C8_witness :
    ("xyz" ≠ "1-0" ∧ "xyz" ≠ "0-1" ∧ "xyz" ≠ "1/2-1/2" ∧ "xyz" ≠ "*") ∧
    parse_rules ⟨none, none, some "WHITE", some "xyz"⟩ =
      parse_rules ⟨none, none, some "WHITE", none⟩ :=
  ⟨⟨by decide, by decide, by decide, by decide⟩,
   C8_unrecognized_result ⟨none, none, some "WHITE", none⟩ "xyz"
     (by decide) (by decide) (by decide) (by decide)⟩

/-- C9: a present, nonempty stm value different from the exact string
WHITE always contributes the black side to move opcode: the stm block
appends exactly RuleBlack to the rule list, and the compiled program of
the full query contains RuleBlack; the value is never rejected and never
dropped. -/
theorem C9_stm_black (q : Query) (d : ScoutData) (s : String)
    (h1 : s ≠ "") (h2 : s ≠ "WHITE") :
    stmStep (some s) d = { d with rules := d.rules ++ [RuleBlack] } ∧
    RuleBlack ∈ (parse_rules { q with stm := some s }).rules := by
  have hstep : ∀ d0 : ScoutData,
      stmStep (some s) d0 = { d0 with rules := d0.rules ++ [RuleBlack] } := by
    intro d0
    simp [stmStep, stmOpcode, h1, h2]
  refine ⟨hstep d, ?_⟩
  show RuleBlack ∈ (sealRules (resultStep q.result (stmStep (some s)
      (materialStep q.material (fenStep q.fen emptyData))))).rules
  rw [hstep]
  have hmem : ∀ d0 : ScoutData, RuleBlack ∈ d0.rules →
      RuleBlack ∈ (sealRules (resultStep q.result d0)).rules := by
    intro d0 hd
    cases q.result with
    | none => simp [resultStep, sealRules, hd]
    | some r =>
        simp only [resultStep]
        split_ifs <;> simp [sealRules, hd]
  exact hmem _ (by simp)

/-- C9 witness: the stm value BLACK on an otherwise empty query appends
RuleBlack, and RuleBlack is in the compiled program. -/
theorem C9_witness :
    ("BLACK" ≠ "" ∧ "BLACK" ≠ "WHITE") ∧
    (stmStep (some "BLACK") emptyData =
       { emptyData with rules := emptyData.rules ++ [RuleBlack] } ∧
     RuleBlack ∈ (parse_rules ⟨none, none, some "BLACK", none⟩).rules) :=
  ⟨⟨by decide, by decide⟩,
   C9_stm_black ⟨none, none, none, none⟩ emptyData "BLACK"
     (by decide) (by decide)⟩

/-- C10: when the replay abandons the remainder of a game (after a match
or after a result mismatch, both reported as SkipToNext), it stops at the
game ending sentinel, every cell it walked over is a non sentinel move,
and the moves replayed counter is advanced by the full count of walked
cells, even though none of the skipped moves was applied to a position or
evaluated. -/
theorem C10_skipped_counted {Pos : Type} (eng : Engine Pos)
    (d : ScoutData) (db : List Move) (pos : Pos) (result i cnt mc : Nat)
    (b : Bool) (hm : dbGet db (i + 1) ≠ 0)
    (hev : evalRules d (eng.view (eng.doMove pos (dbGet db (i + 1)))) result
        d.rules = .skipGame b) :
    dbGet db (playGame eng d db pos result i cnt mc).1 = 0 ∧
    (∀ k, i < k → k < (playGame eng d db pos result i cnt mc).1 →
      dbGet db k ≠ 0) ∧
    (playGame eng d db pos result i cnt mc).2.1 =
      cnt + ((playGame eng d db pos result i cnt mc).1 - (i + 1)) := by
  rw [playGame_eq_skip eng d db pos result i cnt mc b hm hev]
  dsimp only
  obtain ⟨s1, s2, s3⟩ := skipToSentinel_spec db (i + 1) (cnt + 1)
  have hge := skipToSentinel_fst_ge db (i + 1) (cnt + 1)
  refine ⟨s1, ?_, by omega⟩
  intro k hk1 hk2
  rcases Nat.lt_or_ge (i + 1) k with hgt | hle
  · exact s2 k hgt hk2
  · have hk : k = i + 1 := by omega
    simpa [hk] using hm

/-- C10 witness: on the database 9, 7, 8, 8, 0 with the side to move
query dStm, the first move matches, and the replay returns at the
sentinel index 4 with counter 3: the two skipped moves were counted even
though they were never evaluated. -/
theorem C10_witness :
    dbGet [9, 7, 8, 8, 0] 1 ≠ 0 ∧
    (playGame testEngine dStm [9, 7, 8, 8, 0] whiteView 9 0 0 0).2.1 =
      0 + ((playGame testEngine dStm [9, 7, 8, 8, 0] whiteView 9 0 0 0).1
        - 1) :=
  ⟨by decide,
   (C10_skipped_counted testEngine dStm [9, 7, 8, 8, 0] whiteView 9 0 0 0
     true (by decide) (by decide)).2.2⟩

end Scout
